import Mathlib

/-!
Verification development for the flounder chess engine core
(`src/eval.rs`, `src/search.rs`, `src/killer_moves.rs`, `src/move_gen.rs`,
`src/history.rs`).

The Rust sources are shallowly embedded: machine integers (`i32`, `i8`,
`i16`, `u8`) become `Int`/`Nat` (all arithmetic in the embedded fragments
stays far inside the machine ranges, so no wrap-around modelling is
needed; Rust `i32` division truncates toward zero and is rendered as
`Int.tdiv`); Rust `u64` bitboards become `Nat` values whose bits `0..63`
are read through the same iterator the source uses; `&mut self` methods
become state-passing functions returning the updated state.

Types defined by files of the repository that are not under `src/`
(`pieces.rs`, `moves.rs`, `board.rs`, `transposition.rs`, the
`PositionHistory` type) are modelled from the specification and from the
uses visible in the `src/` files; each such definition carries a comment
saying so.
-/

namespace Flounder

/-- Modelled from the spec: piece colors (`pieces.rs` is not under `src/`).
Spec section 3: Color is White or Black and negation flips (Rust `!color`). -/
inductive Color
  | White
  | Black
deriving DecidableEq

/-- Modelled from the spec: Rust `!color` (negation flips the color). -/
def Color.negate : Color → Color
  | .White => .Black
  | .Black => .White

/-- Modelled from the spec: the six piece kinds (`pieces.rs` is not under
`src/`). Spec section 3: Pawn, Knight, Bishop, Rook, Queen, King with stable
indices 0..5. -/
inductive Piece
  | Pawn
  | Knight
  | Bishop
  | Rook
  | Queen
  | King
deriving DecidableEq

/-- Modelled from the spec and from the row comment on `MVV_LVA_SCORES` in
`src/search.rs` (rows are victim King, Queen, Rook, Bishop, Knight, Pawn,
indexed by `piece.index()`): King 0, Queen 1, Rook 2, Bishop 3, Knight 4,
Pawn 5. -/
def Piece.index : Piece → Nat
  | .King => 0
  | .Queen => 1
  | .Rook => 2
  | .Bishop => 3
  | .Knight => 4
  | .Pawn => 5

/-- PIECE_COUNT from `pieces.rs` (six piece kinds). -/
def PIECE_COUNT : Nat := 6

/-- Modelled from the spec: the order in which `PieceIterator` (from
`pieces.rs`, not under `src/`) yields the six piece kinds. The embedded
results folded over this list are sums, so the particular order is
immaterial to every claim below. -/
def pieceList : List Piece := [.Pawn, .Knight, .Bishop, .Rook, .Queen, .King]

/-- Modelled from the spec: move tags (`moves.rs` is not under `src/`).
Spec section 3: Quiet, Capture, EnPassant, Castle, Promotion. -/
inductive MoveType
  | Quiet
  | Capture
  | EnPassant
  | Castle
  | Promotion
deriving DecidableEq

/-- Modelled from the spec and from the literal `Move` record built in the
tests of `src/history.rs`: a move carries `from`, `to`, `piece_type` and
`move_type` (the promoted-to piece is carried in `piece_type`, as
`extract_promotions` in `src/move_gen.rs` shows). `from` is a Lean keyword,
so the two square fields are named `fromSq` and `toSq`. -/
structure Move where
  fromSq : Nat
  toSq : Nat
  piece_type : Piece
  move_type : MoveType
deriving DecidableEq

/-- SQUARES constant from `bitboard.rs` (not under `src/`): 64 squares. -/
def SQUARES : Nat := 64

/-- Modelled from the spec: `BitboardIterator` (from `bitboard.rs`, not under
`src/`) yields the indices of the set bits of a 64-bit bitboard in
increasing order. -/
def bitboardBits (bb : Nat) : List Nat :=
  (List.range 64).filter (fun k => bb.testBit k)

/-- Modelled from the spec: the part of the `Board` (from `board.rs`, not
under `src/`) that the evaluator reads. Spec section 3: twelve bitboards
(one per color and piece kind) and the side to move. -/
structure Board where
  bbs : Color → Piece → Nat
  active_color : Color

/-! Piece-square tables from `src/eval.rs`, transcribed verbatim.
Each table is a 64-entry array in the White rank-8-first layout. -/

def OPENING_PAWN_TABLE : List Int := [
      0,   0,   0,   0,   0,   0,  0,   0,
     98, 134,  61,  95,  68, 126, 34, -11,
     -6,   7,  26,  31,  65,  56, 25, -20,
    -14,  13,   6,  21,  23,  12, 17, -23,
    -27,  -2,  -5,  12,  17,   6, 10, -25,
    -26,  -4,  -4, -10,   3,   3, 33, -12,
    -35,  -1, -20, -23, -15,  24, 38, -22,
      0,   0,   0,   0,   0,   0,  0,   0]

def ENDGAME_PAWN_TABLE : List Int := [
      0,   0,   0,   0,   0,   0,   0,   0,
    178, 173, 158, 134, 147, 132, 165, 187,
     94, 100,  85,  67,  56,  53,  82,  84,
     32,  24,  13,   5,  -2,   4,  17,  17,
     13,   9,  -3,  -7,  -7,  -8,   3,  -1,
      4,   7,  -6,   1,   0,  -5,  -1,  -8,
     13,   8,   8,  10,  13,   0,   2,  -7,
      0,   0,   0,   0,   0,   0,   0,   0]

def OPENING_KNIGHT_TABLE : List Int := [
    -167, -89, -34, -49,  61, -97, -15, -107,
     -73, -41,  72,  36,  23,  62,   7,  -17,
     -47,  60,  37,  65,  84, 129,  73,   44,
      -9,  17,  19,  53,  37,  69,  18,   22,
     -13,   4,  16,  13,  28,  19,  21,   -8,
     -23,  -9,  12,  10,  19,  17,  25,  -16,
     -29, -53, -12,  -3,  -1,  18, -14,  -19,
    -105, -21, -58, -33, -17, -28, -19,  -23]

def ENDGAME_KNIGHT_TABLE : List Int := [
    -58, -38, -13, -28, -31, -27, -63, -99,
    -25,  -8, -25,  -2,  -9, -25, -24, -52,
    -24, -20,  10,   9,  -1,  -9, -19, -41,
    -17,   3,  22,  22,  22,  11,   8, -18,
    -18,  -6,  16,  25,  16,  17,   4, -18,
    -23,  -3,  -1,  15,  10,  -3, -20, -22,
    -42, -20, -10,  -5,  -2, -20, -23, -44,
    -29, -51, -23, -15, -22, -18, -50, -64]

def OPENING_BISHOP_TABLE : List Int := [
    -29,   4, -82, -37, -25, -42,   7,  -8,
    -26,  16, -18, -13,  30,  59,  18, -47,
    -16,  37,  43,  40,  35,  50,  37,  -2,
     -4,   5,  19,  50,  37,  37,   7,  -2,
     -6,  13,  13,  26,  34,  12,  10,   4,
      0,  15,  15,  15,  14,  27,  18,  10,
      4,  15,  16,   0,   7,  21,  33,   1,
    -33,  -3, -14, -21, -13, -12, -39, -21]

def ENDGAME_BISHOP_TABLE : List Int := [
    -14, -21, -11,  -8, -7,  -9, -17, -24,
     -8,  -4,   7, -12, -3, -13,  -4, -14,
      2,  -8,   0,  -1, -2,   6,   0,   4,
     -3,   9,  12,   9, 14,  10,   3,   2,
     -6,   3,  13,  19,  7,  10,  -3,  -9,
    -12,  -3,   8,  10, 13,   3,  -7, -15,
    -14, -18,  -7,  -1,  4,  -9, -15, -27,
    -23,  -9, -23,  -5, -9, -16,  -5, -17]

def OPENING_ROOK_TABLE : List Int := [
     32,  42,  32,  51, 63,  9,  31,  43,
     27,  32,  58,  62, 80, 67,  26,  44,
     -5,  19,  26,  36, 17, 45,  61,  16,
    -24, -11,   7,  26, 24, 35,  -8, -20,
    -36, -26, -12,  -1,  9, -7,   6, -23,
    -45, -25, -16, -17,  3,  0,  -5, -33,
    -44, -16, -20,  -9, -1, 11,  -6, -71,
    -19, -13,   1,  17, 16,  7, -37, -26]

def ENDGAME_ROOK_TABLE : List Int := [
    13, 10, 18, 15, 12,  12,   8,   5,
    11, 13, 13, 11, -3,   3,   8,   3,
     7,  7,  7,  5,  4,  -3,  -5,  -3,
     4,  3, 13,  1,  2,   1,  -1,   2,
     3,  5,  8,  4, -5,  -6,  -8, -11,
    -4,  0, -5, -1, -7, -12,  -8, -16,
    -6, -6,  0,  2, -9,  -9, -11,  -3,
    -9,  2,  3, -1, -5, -13,   4, -20]

def OPENING_QUEEN_TABLE : List Int := [
    -28,   0,  29,  12,  59,  44,  43,  45,
    -24, -39,  -5,   1, -16,  57,  28,  54,
    -13, -17,   7,   8,  29,  56,  47,  57,
    -27, -27, -16, -16,  -1,  17,  -2,   1,
     -9, -26,  -9, -10,  -2,  -4,   3,  -3,
    -14,   2, -11,  -2,  -5,   2,  14,   5,
    -35,  -8,  11,   2,   8,  15,  -3,   1,
     -1, -18,  -9,  10, -15, -25, -31, -50]

def ENDGAME_QUEEN_TABLE : List Int := [
     -9,  22,  22,  27,  27,  19,  10,  20,
    -17,  20,  32,  41,  58,  25,  30,   0,
    -20,   6,   9,  49,  47,  35,  19,   9,
      3,  22,  24,  45,  57,  40,  57,  36,
    -18,  28,  19,  47,  31,  34,  39,  23,
    -16, -27,  15,   6,   9,  17,  10,   5,
    -22, -23, -30, -16, -16, -23, -36, -32,
    -33, -28, -22, -43,  -5, -32, -20, -41]

def OPENING_KING_TABLE : List Int := [
    -65,  23,  16, -15, -56, -34,   2,  13,
     29,  -1, -20,  -7,  -8,  -4, -38, -29,
     -9,  24,   2, -16, -20,   6,  22, -22,
    -17, -20, -12, -27, -30, -25, -14, -36,
    -49,  -1, -27, -39, -46, -44, -33, -51,
    -14, -14, -22, -46, -44, -30, -15, -27,
      1,   7,  -8, -64, -43, -16,   9,   8,
    -15,  36,  12, -54,   8, -28,  24,  14]

def ENDGAME_KING_TABLE : List Int := [
    -74, -35, -18, -18, -11,  15,   4, -17,
    -12,  17,  14,  17,  17,  38,  23,  11,
     10,  17,  23,  15,  20,  45,  44,  13,
     -8,  22,  24,  27,  26,  33,  26,   3,
    -18,  -4,  21,  24,  27,  23,   9, -11,
    -19,  -3,  11,  21,  23,  16,   7,  -9,
    -27, -11,   4,  13,  14,   4,  -5, -17,
    -53, -34, -21, -11, -28, -14, -24, -43]

/-- Evaluator state from `src/eval.rs`. The two table arrays built by
`initialize_tables` are immutable after construction and are rendered below
as the functions `opening_table` and `endgame_table`; only the three mutable
accumulators are carried as state. -/
structure Evaluator where
  gamephase : Int
  opening_score : Int
  endgame_score : Int

/-- opening_value from `src/eval.rs`. -/
def opening_value : Piece → Int
  | .Pawn => 82
  | .Knight => 337
  | .Bishop => 365
  | .Rook => 477
  | .Queen => 1025
  | .King => 0

/-- endgame_value from `src/eval.rs`. -/
def endgame_value : Piece → Int
  | .Pawn => 94
  | .Knight => 281
  | .Bishop => 297
  | .Rook => 512
  | .Queen => 936
  | .King => 0

/-- populate_table from `src/eval.rs`: folds the material value into each
entry of a piece-square table. -/
def populate_table (table : List Int) (piece_value : Int) : List Int :=
  table.map (fun x => x + piece_value)

/-- opening_table from `src/eval.rs` (the entry
`opening_tables[piece.index()]` built by `initialize_tables`). -/
def opening_table (piece : Piece) : List Int :=
  populate_table
    (match piece with
      | .Pawn => OPENING_PAWN_TABLE
      | .Knight => OPENING_KNIGHT_TABLE
      | .Bishop => OPENING_BISHOP_TABLE
      | .Rook => OPENING_ROOK_TABLE
      | .Queen => OPENING_QUEEN_TABLE
      | .King => OPENING_KING_TABLE)
    (opening_value piece)

/-- endgame_table from `src/eval.rs` (the entry
`endgame_tables[piece.index()]` built by `initialize_tables`). -/
def endgame_table (piece : Piece) : List Int :=
  populate_table
    (match piece with
      | .Pawn => ENDGAME_PAWN_TABLE
      | .Knight => ENDGAME_KNIGHT_TABLE
      | .Bishop => ENDGAME_BISHOP_TABLE
      | .Rook => ENDGAME_ROOK_TABLE
      | .Queen => ENDGAME_QUEEN_TABLE
      | .King => ENDGAME_KING_TABLE)
    (endgame_value piece)

/-- phase_increment from `src/eval.rs`. -/
def phase_increment : Piece → Int
  | .Pawn => 0
  | .Knight => 1
  | .Bishop => 1
  | .Rook => 2
  | .Queen => 4
  | .King => 0

/-- The square-index computation inside `evaluate_piece_position` in
`src/eval.rs`: for White the bit index is remapped by
`(7 - bit / 8) * 8 + bit % 8`, for Black it is used unchanged. -/
def pst_index (color : Color) (bit : Nat) : Nat :=
  match color with
  | .White => (7 - bit / 8) * 8 + bit % 8
  | .Black => bit

/-- evaluate_piece_position from `src/eval.rs`: sums the opening-table and
endgame-table entries and the phase increments over all pieces of the given
color and kind, returning (opening_score, endgame_score, gamephase). -/
def evaluate_piece_position (color : Color) (piece : Piece) (board : Board) :
    Int × Int × Int :=
  (bitboardBits (board.bbs color piece)).foldl
    (fun acc bit =>
      let square := pst_index color bit
      (acc.1 + (opening_table piece).getD square 0,
       acc.2.1 + (endgame_table piece).getD square 0,
       acc.2.2 + phase_increment piece))
    (0, 0, 0)

/-- evaluate_piece from `src/eval.rs`: adds the active player's sums minus
the opponent's sums into the accumulators (phase increments of both sides
are added). -/
def Evaluator.evaluate_piece (e : Evaluator) (color : Color) (piece : Piece)
    (board : Board) : Evaluator :=
  let p := evaluate_piece_position color piece board
  let o := evaluate_piece_position color.negate piece board
  { gamephase := e.gamephase + (p.2.2 + o.2.2),
    opening_score := e.opening_score + (p.1 - o.1),
    endgame_score := e.endgame_score + (p.2.1 - o.2.1) }

/-- reset from `src/eval.rs`: zeroes the three accumulators. -/
def Evaluator.reset (_e : Evaluator) : Evaluator :=
  { gamephase := 0, opening_score := 0, endgame_score := 0 }

/-- evaluate from `src/eval.rs`: resets the accumulators, folds
`evaluate_piece` over all six piece kinds, clamps the phase counter at 24
and returns the tapered score (Rust `i32` division truncates toward zero,
hence `Int.tdiv`). The updated evaluator state is returned alongside the
score to model `&mut self`. -/
def Evaluator.evaluate (e : Evaluator) (board : Board) : Int × Evaluator :=
  let e0 := e.reset
  let e1 := pieceList.foldl
    (fun acc piece => acc.evaluate_piece board.active_color piece board) e0
  let opening_phase := if e1.gamephase > 24 then 24 else e1.gamephase
  let endgame_phase := 24 - opening_phase
  (Int.tdiv (e1.opening_score * opening_phase + e1.endgame_score * endgame_phase) 24,
   e1)

/-! Killer move table from `src/killer_moves.rs`. The Rust 64-row array is
modelled as a function from the ply index to a 2-slot row; plies at or
beyond MAX_DEPTH are rejected by `is_valid_ply` exactly as in the source,
so the out-of-range part of the function is never written. -/

/-- MAX_DEPTH from `src/killer_moves.rs`. -/
def MAX_DEPTH : Nat := 64

/-- KILLERS_PER_PLY from `src/killer_moves.rs`. -/
def KILLERS_PER_PLY : Nat := 2

/-- KillerMoves from `src/killer_moves.rs`: per ply, a row of
KILLERS_PER_PLY optional moves. -/
structure KillerMoves where
  moves : Nat → List (Option Move)

/-- KillerMoves::new from `src/killer_moves.rs`: every slot empty. -/
def KillerMoves.new : KillerMoves :=
  ⟨fun _ => List.replicate KILLERS_PER_PLY none⟩

/-- is_valid_ply from `src/killer_moves.rs`. -/
def KillerMoves.is_valid_ply (_km : KillerMoves) (ply : Nat) : Bool :=
  ply < MAX_DEPTH

/-- shift_and_insert from `src/killer_moves.rs`: the source loop shifts
slot 0 into slot 1 and writes the new move into slot 0; with
KILLERS_PER_PLY = 2 the updated row is `[some mv, old slot 0]`. -/
def KillerMoves.shift_and_insert (km : KillerMoves) (ply_idx : Nat) (mv : Move) :
    KillerMoves :=
  ⟨Function.update km.moves ply_idx [some mv, (km.moves ply_idx).getD 0 none]⟩

/-- store from `src/killer_moves.rs`: no-op for an invalid ply or when the
move already sits in the primary slot, otherwise shift-and-insert. -/
def KillerMoves.store (km : KillerMoves) (mv : Move) (ply : Nat) : KillerMoves :=
  if !km.is_valid_ply ply then km
  else
    let ply_idx := ply
    if (km.moves ply_idx).getD 0 none = some mv then km
    else km.shift_and_insert ply_idx mv

/-- is_killer from `src/killer_moves.rs`: membership of the move in the row
at the given ply, false for an invalid ply. -/
def KillerMoves.is_killer (km : KillerMoves) (mv : Move) (ply : Nat) : Bool :=
  if !km.is_valid_ply ply then false
  else decide (some mv ∈ km.moves ply)

/-- get_killers from `src/killer_moves.rs`: the row at the given ply, the
empty slice for an invalid ply. -/
def KillerMoves.get_killers (km : KillerMoves) (ply : Nat) : List (Option Move) :=
  if !km.is_valid_ply ply then []
  else km.moves ply

/-- clear_ply from `src/killer_moves.rs`: empties the row at a valid ply,
no-op otherwise. -/
def KillerMoves.clear_ply (km : KillerMoves) (ply : Nat) : KillerMoves :=
  if km.is_valid_ply ply then
    ⟨Function.update km.moves ply (List.replicate KILLERS_PER_PLY none)⟩
  else km

/-! Search layer from `src/search.rs`. The collaborators implemented by
files outside `src/` (board, move generation lookup tables, Zobrist
hashing) are abstracted into an `Engine` record, and the searcher is
embedded parametrically over it. The timer is modelled as never expiring
(wall-clock time is outside the embedding); the node counter is omitted
since no claim reads it. -/

/-- NEGATIVE_INFINITY from `src/search.rs`: `(i16::MIN + 1) as i32`. -/
def NEGATIVE_INFINITY : Int := -32767

/-- INFINITY from `src/search.rs`: `-NEGATIVE_INFINITY`. -/
def INFINITY : Int := -NEGATIVE_INFINITY

/-- CHECKMATE_SCORE from `src/search.rs`: `i32::MAX - 1000`. -/
def CHECKMATE_SCORE : Int := 2147483647 - 1000

/-- The value `i16::MIN`, the sort key the transposition-table move
receives in `order_moves` in `src/search.rs`. -/
def I16_MIN : Int := -32768

/-- MVV_LVA_SCORES from `src/search.rs`: rows are the victim piece (King,
Queen, Rook, Bishop, Knight, Pawn), columns the attacker piece in the same
order. -/
def MVV_LVA_SCORES : List (List Int) := [
    [0, 0, 0, 0, 0, 0],
    [50, 51, 52, 53, 54, 55],
    [40, 41, 42, 43, 44, 45],
    [30, 31, 32, 33, 34, 35],
    [20, 21, 22, 23, 24, 25],
    [10, 11, 12, 13, 14, 15]]

/-- Modelled from the spec: the bound kinds of a transposition entry
(`transposition.rs` is not under `src/`). -/
inductive Bounds
  | Exact
  | Lower
  | Upper
deriving DecidableEq

/-- Modelled from the spec (section 3) and the field accesses in
`src/search.rs`: a transposition entry carries the full Zobrist key, the
searched depth, the score (accessed as `entry.eval`), the best move and
the bound kind (accessed as `entry.bounds`). -/
structure TranspositionEntry where
  key : Nat
  depth : Nat
  eval : Int
  best_move : Option Move
  bounds : Bounds
deriving DecidableEq

/-- Modelled from the spec (section 4.4): a fixed-capacity array indexed by
`key mod capacity` with an always-replace store; `retrieve` returns the
slot entry only when its stored key matches. -/
structure TranspositionTable where
  capacity : Nat
  entries : Nat → Option TranspositionEntry

/-- Modelled from the spec (section 4.4): always-replace store at
`key mod capacity`. -/
def TranspositionTable.store (tt : TranspositionTable) (key : Nat) (eval : Int)
    (best_move : Option Move) (depth : Nat) (bounds : Bounds) : TranspositionTable :=
  { tt with
    entries := Function.update tt.entries (key % tt.capacity)
      (some ⟨key, depth, eval, best_move, bounds⟩) }

/-- Modelled from the spec (section 4.4): retrieve with key check. -/
def TranspositionTable.retrieve (tt : TranspositionTable) (key : Nat) :
    Option TranspositionEntry :=
  match tt.entries (key % tt.capacity) with
  | some entry => if entry.key = key then some entry else none
  | none => none

/-- SearchResult from `src/search.rs`. -/
structure SearchResult where
  score : Int
  best_move : Option Move
deriving DecidableEq

/-- SearchResult::worst from `src/search.rs`. -/
def SearchResult.worst : SearchResult := ⟨NEGATIVE_INFINITY, none⟩

/-- SearchResult::checkmate from `src/search.rs`. -/
def SearchResult.checkmate (checkmate_score : Int) : SearchResult :=
  ⟨checkmate_score, none⟩

/-- SearchResult::stalemate from `src/search.rs`. -/
def SearchResult.stalemate : SearchResult := ⟨0, none⟩

/-- SearchContext from `src/search.rs`. -/
structure SearchContext where
  tt_best_move : Option Move
deriving DecidableEq

/-- SearchContext::new from `src/search.rs`. -/
def SearchContext.new : SearchContext := ⟨none⟩

/-- Modelled from the spec: the collaborators of the searcher whose
implementations live outside `src/` (the board with move application and
piece lookup from `board.rs`, legal and quiescence move generation of
`src/move_gen.rs` whose board and lookup tables are external, the Zobrist
hash, and the static evaluation used at the leaves). The searcher of
`src/search.rs` is embedded parametrically over this record, so every
theorem below quantifies over all possible collaborator behaviors. -/
structure Engine (B : Type) where
  generate_moves : B → List Move
  generate_quiescence_moves : B → List Move
  is_in_check : B → Bool
  clone_with_move : B → Move → B
  evaluate : B → Int
  hash : B → Nat
  get_piece_at : B → Nat → Option Piece

/-- Modelled from the spec (section 4.6): `PositionHistory` is a stack of
Zobrist hashes, and `is_repetition(current)` is true iff the current hash
appears at least twice among the prior entries. (The `PositionHistory`
type imported by `src/search.rs` is not under `src/`; `src/history.rs`
holds the unrelated `HistoryTable` ordering heuristic.) -/
def PositionHistory.is_repetition (history : List Nat) (current : Nat) : Bool :=
  decide (2 ≤ history.count current)

/-- The mutable searcher sub-state threaded through negamax
(`src/search.rs` fields `transposition_table`, `killer_moves`,
`history`). -/
structure SearcherState where
  transposition_table : TranspositionTable
  killer_moves : KillerMoves
  history : List Nat

/-- is_draw_by_repetition from `src/search.rs`. -/
def is_draw_by_repetition {B : Type} (eng : Engine B) (st : SearcherState) (b : B) : Bool :=
  PositionHistory.is_repetition st.history (eng.hash b)

/-- calculate_capture_score from `src/search.rs`: looks up the attacker on
the move's source square and the victim on its destination square; `None`
if either square is empty. -/
def calculate_capture_score {B : Type} (eng : Engine B) (b : B) (mv : Move) : Option Int :=
  match eng.get_piece_at b mv.fromSq with
  | none => none
  | some attacker =>
    match eng.get_piece_at b mv.toSq with
    | none => none
    | some victim =>
      some ((MVV_LVA_SCORES.getD victim.index []).getD attacker.index 0)

/-- The sort-key closure of order_moves from `src/search.rs` (the key type
is `i16`; all values stay far inside that range). The source's early
returns become nested alternatives in the same order: transposition move,
capture score when one exists, killer, promotion, quiet. -/
def order_moves_key {B : Type} (eng : Engine B) (b : B) (tt_move : Option Move)
    (killers : KillerMoves) (ply : Nat) (mv : Move) : Int :=
  if tt_move = some mv then I16_MIN
  else
    match
      (if mv.move_type = MoveType.Capture ∨ mv.move_type = MoveType.EnPassant
       then calculate_capture_score eng b mv
       else none) with
    | some score => -score - 1000
    | none =>
      if killers.is_killer mv ply then -500
      else if mv.move_type = MoveType.Promotion then -400
      else 0

/-- Insertion step of the stable by-key sort: a new element is placed
before the first element whose key is not smaller, so elements with equal
keys keep their original relative order. -/
def insert_by_key {α : Type} (key : α → Int) (a : α) : List α → List α
  | [] => [a]
  | x :: xs =>
    if key a ≤ key x then a :: x :: xs
    else x :: insert_by_key key a xs

/-- Stable sort ascending by an integer key. Rust's `sort_by_cached_key`
(used by `order_moves` and `order_captures` in `src/search.rs`) is a
stable ascending sort by key, and every stable ascending sort by key
computes the same list, so this structurally recursive insertion sort
models it exactly. -/
def sort_by_key {α : Type} (key : α → Int) : List α → List α
  | [] => []
  | x :: xs => insert_by_key key x (sort_by_key key xs)

/-- order_moves from `src/search.rs`: a stable sort ascending by the key
(`sort_by_cached_key` is a stable sort). -/
def order_moves {B : Type} (eng : Engine B) (b : B) (moves : List Move)
    (tt_move : Option Move) (ply : Nat) (killers : KillerMoves) : List Move :=
  sort_by_key (order_moves_key eng b tt_move killers ply) moves

/-- The sort-key closure of order_captures from `src/search.rs`:
en-passants get the fixed key -10, scored captures the negated MVV-LVA
score, everything else 0. -/
def order_captures_key {B : Type} (eng : Engine B) (b : B) (mv : Move) : Int :=
  if mv.move_type = MoveType.EnPassant then -10
  else
    match calculate_capture_score eng b mv with
    | some score => -score
    | none => 0

/-- order_captures from `src/search.rs`. -/
def order_captures {B : Type} (eng : Engine B) (moves : List Move) (b : B) : List Move :=
  sort_by_key (order_captures_key eng b) moves

/-- determine_bound from `src/search.rs`. -/
def determine_bound (score original_alpha beta : Int) : Bounds :=
  if score ≤ original_alpha then Bounds.Upper
  else if score ≥ beta then Bounds.Lower
  else Bounds.Exact

/-- handle_terminal_position from `src/search.rs`: checkmate score
`-CHECKMATE_SCORE + depth` when in check, stalemate score 0 otherwise. -/
def handle_terminal_position {B : Type} (eng : Engine B) (b : B) (depth : Nat) :
    SearchResult :=
  if eng.is_in_check b then
    SearchResult.checkmate (-CHECKMATE_SCORE + (depth : Int))
  else
    SearchResult.stalemate

/-- store_in_transposition_table from `src/search.rs`. -/
def store_in_transposition_table {B : Type} (eng : Engine B) (st : SearcherState)
    (b : B) (result : SearchResult) (depth : Nat) (bound : Bounds) : SearcherState :=
  { st with
    transposition_table :=
      st.transposition_table.store (eng.hash b) result.score result.best_move depth bound }

/-- probe_transposition_table from `src/search.rs`: remembers the entry's
best move in the context, rejects entries of insufficient depth, returns
Exact entries immediately, and for Lower (respectively Upper) entries
raises a local copy of alpha (lowers a local copy of beta) to the entry
score, returning the entry score on a resulting cutoff; the source checks
`alpha >= beta` once after the match, which is rendered here inside each
arm (the Exact arm has already returned). -/
def probe_transposition_table {B : Type} (eng : Engine B) (st : SearcherState) (b : B)
    (depth : Nat) (alpha beta : Int) (ctx : SearchContext) :
    Option SearchResult × SearchContext :=
  match st.transposition_table.retrieve (eng.hash b) with
  | none => (none, ctx)
  | some entry =>
    let ctx := { ctx with tt_best_move := entry.best_move }
    if entry.depth < depth then (none, ctx)
    else
      match entry.bounds with
      | Bounds.Exact => (some ⟨entry.eval, entry.best_move⟩, ctx)
      | Bounds.Lower =>
        let alpha := max alpha entry.eval
        if alpha ≥ beta then (some ⟨entry.eval, entry.best_move⟩, ctx)
        else (none, ctx)
      | Bounds.Upper =>
        let beta := min beta entry.eval
        if alpha ≥ beta then (some ⟨entry.eval, entry.best_move⟩, ctx)
        else (none, ctx)

/-- The move loop of search_until_quiet from `src/search.rs`, with the
recursive call abstracted as `recurse` (the timer never stops in this
model, so the loop break on `should_stop` is dropped): fail-high returns
beta, otherwise alpha is raised move by move and returned at the end. -/
def quiet_loop {B : Type} (recurse : B → Int → Int → Int)
    (clone_with_move : B → Move → B) (b : B) (beta : Int) :
    List Move → Int → Int
  | [], alpha => alpha
  | mv :: rest, alpha =>
    let next_position := clone_with_move b mv
    let score := -(recurse next_position (-beta) (-alpha))
    if score ≥ beta then beta
    else quiet_loop recurse clone_with_move b beta rest (max alpha score)

/-- search_until_quiet from `src/search.rs` (quiescence search). The Rust
recursion terminates because every searched move removes material; the
embedding makes that bound explicit with a fuel parameter that every claim
instantiates with a positive value; a call with fuel 0 (unreachable along
the source's recursion) returns alpha. -/
def search_until_quiet {B : Type} (eng : Engine B) : Nat → B → Int → Int → Int
  | 0, _, alpha, _ => alpha
  | fuel + 1, b, alpha, beta =>
    let currently_in_check := eng.is_in_check b
    let moves :=
      if currently_in_check then eng.generate_moves b
      else eng.generate_quiescence_moves b
    let moves := order_captures eng moves b
    if moves.isEmpty && currently_in_check then -CHECKMATE_SCORE
    else
      let stand_pat := eng.evaluate b
      if stand_pat ≥ beta then beta
      else
        quiet_loop (fun b2 a2 b3 => search_until_quiet eng fuel b2 a2 b3)
          eng.clone_with_move b beta moves (max alpha stand_pat)

/-- The move loop of negamax from `src/search.rs`, with the recursive call
abstracted as `recurse` (the timer never stops in this model, so the loop
break on `should_stop` is dropped). On a beta cutoff a Quiet cut-move is
recorded as a killer at the current ply and the loop breaks; the
caller stores the transposition entry afterwards. -/
def moves_loop {B : Type}
    (recurse : B → Int → Int → SearcherState → SearchResult × SearcherState)
    (clone_with_move : B → Move → B) (b : B) (ply : Nat) (beta : Int) :
    List Move → Int → SearchResult → SearcherState → SearchResult × SearcherState
  | [], _alpha, best_result, st => (best_result, st)
  | current_move :: rest, alpha, best_result, st =>
    let next_position := clone_with_move b current_move
    let rec_result := recurse next_position (-beta) (-alpha) st
    let score := -rec_result.1.score
    let best1 :=
      if score > best_result.score then (⟨score, some current_move⟩ : SearchResult)
      else best_result
    let alpha1 := max alpha score
    if alpha1 ≥ beta then
      let st2 :=
        if current_move.move_type = MoveType.Quiet then
          { rec_result.2 with killer_moves := rec_result.2.killer_moves.store current_move ply }
        else rec_result.2
      (best1, st2)
    else
      moves_loop recurse clone_with_move b ply beta rest alpha1 best1 rec_result.2

/-- The part of negamax from `src/search.rs` that runs after the
transposition probe yields no early return, with the recursive call into
the child search abstracted as `child` (applied at `depth - 1` and
`ply + 1` with the negated, swapped window and a fresh context): the
depth-0 quiescence leaf, the terminal (checkmate/stalemate) case on an
empty move list, and otherwise ordering, the move loop, bound
classification and the transposition store. -/
def negamax_after_probe {B : Type} (eng : Engine B) (qfuel : Nat)
    (child : B → Nat → Int → Int → SearchContext → SearcherState → SearchResult × SearcherState)
    (depth : Nat) (b : B) (ply : Nat) (alpha beta original_alpha : Int)
    (ctx : SearchContext) (st : SearcherState) : SearchResult × SearcherState :=
  match depth with
  | 0 => (⟨search_until_quiet eng qfuel b alpha beta, none⟩, st)
  | d + 1 =>
    let moves := eng.generate_moves b
    if moves.isEmpty then (handle_terminal_position eng b (d + 1), st)
    else
      let ordered := order_moves eng b moves ctx.tt_best_move ply st.killer_moves
      let res :=
        moves_loop
          (fun b2 a2 b3 st2 => child b2 (ply + 1) a2 b3 SearchContext.new st2)
          eng.clone_with_move b ply beta ordered alpha SearchResult.worst st
      let bound := determine_bound res.1.score original_alpha beta
      let st2 := store_in_transposition_table eng res.2 b res.1 (d + 1) bound
      (res.1, st2)

/-- The body of negamax from `src/search.rs`, with the recursive call
abstracted as `child`: capture the original alpha, return a draw score on
a repetition away from the root, probe the transposition table (an early
cached result returns immediately), and otherwise continue in
`negamax_after_probe` with the unchanged alpha and beta. -/
def negamax_body {B : Type} (eng : Engine B) (qfuel : Nat)
    (child : B → Nat → Int → Int → SearchContext → SearcherState → SearchResult × SearcherState)
    (depth : Nat) (b : B) (ply : Nat) (alpha beta : Int)
    (ctx : SearchContext) (st : SearcherState) : SearchResult × SearcherState :=
  let original_alpha := alpha
  if 0 < ply ∧ is_draw_by_repetition eng st b then ((⟨0, none⟩ : SearchResult), st)
  else
    match probe_transposition_table eng st b depth alpha beta ctx with
    | (some cached_result, _) => (cached_result, st)
    | (none, ctx1) =>
      negamax_after_probe eng qfuel child depth b ply alpha beta original_alpha ctx1 st

/-- negamax from `src/search.rs`, tied structurally over the remaining
depth: at depth d + 1 the child search is negamax at depth d; at depth 0
the body never reaches a recursive call, so an inert placeholder child is
passed. -/
def negamax {B : Type} (eng : Engine B) (qfuel : Nat) :
    Nat → B → Nat → Int → Int → SearchContext → SearcherState → SearchResult × SearcherState
  | 0 => negamax_body eng qfuel (fun _ _ _ _ _ st => ((⟨0, none⟩ : SearchResult), st)) 0
  | d + 1 => negamax_body eng qfuel (fun b2 => negamax eng qfuel d b2) (d + 1)

/-- The child search that `negamax` at a given depth passes into its body:
negamax at depth - 1, or the inert placeholder at depth 0 (where the body
cannot reach it). -/
def negamax_child {B : Type} (eng : Engine B) (qfuel : Nat) :
    Nat → B → Nat → Int → Int → SearchContext → SearcherState → SearchResult × SearcherState
  | 0 => fun _ _ _ _ _ st => ((⟨0, none⟩ : SearchResult), st)
  | d + 1 => fun b2 => negamax eng qfuel d b2

/-! Claim-side definitions, written from the words of the specification and
the claims (to be compared against the source-side definitions above). -/

/-- Written from the words of claim C1 as amended: the piece-square table
index the evaluator is claimed to read for a piece of the given color on
the given square, with the White and Black roles as the code actually has
them (White mirrored by XOR 56, Black unchanged). -/
def claim_pst_index (color : Color) (bit : Nat) : Nat :=
  match color with
  | .White => bit ^^^ 56
  | .Black => bit

/-- Written from the words of claim C6: the total of a piece-square table
over the pieces of one bitboard, reading the table at the (amended)
claimed index. -/
def claimTableTotal (table : List Int) (color : Color) (bb : Nat) : Int :=
  ((bitboardBits bb).map (fun bit => table.getD (claim_pst_index color bit) 0)).sum

/-- Written from the words of claim C6: the opening-table total for one
side, summed over all six piece kinds. -/
def openingTotal (board : Board) (color : Color) : Int :=
  (pieceList.map
    (fun p => claimTableTotal (opening_table p) color (board.bbs color p))).sum

/-- Written from the words of claim C6: the endgame-table total for one
side, summed over all six piece kinds. -/
def endgameTotal (board : Board) (color : Color) : Int :=
  (pieceList.map
    (fun p => claimTableTotal (endgame_table p) color (board.bbs color p))).sum

/-- Written from the words of claim C6: the game-phase increments
(knight 1, bishop 1, rook 2, queen 4, pawn and king 0). -/
def claimPhaseIncrement : Piece → Int
  | .Knight => 1
  | .Bishop => 1
  | .Rook => 2
  | .Queen => 4
  | .Pawn => 0
  | .King => 0

/-- Written from the words of claim C6: the unclamped phase counter, the
sum of the increments over all remaining pieces of both sides. -/
def phaseTotal (board : Board) : Int :=
  (pieceList.map
    (fun p =>
      claimPhaseIncrement p * ((bitboardBits (board.bbs Color.White p)).length : Int)
      + claimPhaseIncrement p * ((bitboardBits (board.bbs Color.Black p)).length : Int))).sum

/-! Concrete engines and states used by the witnesses and
counterexamples below. -/

/-- A quiet knight move used by the C2 engine. -/
def mvC2 : Move := ⟨1, 18, Piece.Knight, MoveType.Quiet⟩

/-- Concrete engine over a two-position board type (position `true` is the
parent, `false` the child): the parent has the single quiet move `mvC2`
leading to the child; the child is quiet (no quiescence moves) and
evaluates to 30; the positions hash to 1 and 2. -/
def engC2 : Engine Bool :=
  { generate_moves := fun b => if b then [mvC2] else [],
    generate_quiescence_moves := fun _ => [],
    is_in_check := fun _ => false,
    clone_with_move := fun _ _ => false,
    evaluate := fun b => if b then 0 else 30,
    hash := fun b => if b then 1 else 2,
    get_piece_at := fun _ _ => none }

/-- Transposition table holding one Lower-bound entry (score 50, depth 1)
for the parent position of `engC2`. -/
def ttC2 : TranspositionTable :=
  { capacity := 16,
    entries := fun k =>
      if k = 1 then some ⟨1, 1, 50, none, Bounds.Lower⟩ else none }

/-- Searcher state for the C2 scenario: the table above, no killers, empty
position history. -/
def stC2 : SearcherState := ⟨ttC2, KillerMoves.new, []⟩

/-- Concrete engine for the C3 scenario: a White pawn on square 35 (d5)
and a Black pawn on square 36 (e5); square 44 (e6, the en-passant target)
is empty, as the en-passant target square always is. -/
def engC3 : Engine Unit :=
  { generate_moves := fun _ => [],
    generate_quiescence_moves := fun _ => [],
    is_in_check := fun _ => false,
    clone_with_move := fun _ _ => (),
    evaluate := fun _ => 0,
    hash := fun _ => 0,
    get_piece_at := fun _ sq =>
      if sq = 35 then some Piece.Pawn
      else if sq = 36 then some Piece.Pawn
      else none }

/-- The en-passant capture d5 to e6 in the C3 scenario. -/
def mvC3ep : Move := ⟨35, 44, Piece.Pawn, MoveType.EnPassant⟩

/-- An ordinary pawn-takes-pawn capture in the C3 scenario (attacker on
35, victim on 36). -/
def mvC3cap : Move := ⟨35, 36, Piece.Pawn, MoveType.Capture⟩

/-- Concrete engine for a position with no legal moves while in check
(used by the C4 and C7 witnesses). -/
def engC4 : Engine Unit :=
  { generate_moves := fun _ => [],
    generate_quiescence_moves := fun _ => [],
    is_in_check := fun _ => true,
    clone_with_move := fun _ _ => (),
    evaluate := fun _ => 0,
    hash := fun _ => 0,
    get_piece_at := fun _ _ => none }

/-- An empty transposition table. -/
def ttEmpty : TranspositionTable := ⟨16, fun _ => none⟩

/-- A fresh searcher state: empty table, no killers, empty history. -/
def stEmpty : SearcherState := ⟨ttEmpty, KillerMoves.new, []⟩

/-- Concrete engine for a quiet position that is not in check and
evaluates to 30 (used by the C7 witness for the stand-pat cutoff). -/
def engC7 : Engine Unit :=
  { generate_moves := fun _ => [],
    generate_quiescence_moves := fun _ => [],
    is_in_check := fun _ => false,
    clone_with_move := fun _ _ => (),
    evaluate := fun _ => 30,
    hash := fun _ => 0,
    get_piece_at := fun _ _ => none }

/-- Concrete board for the C1 counterexample: a single White pawn on
square 8 (a2), White to move. -/
def boardC1 : Board :=
  { bbs := fun c p =>
      match c, p with
      | .White, .Pawn => 2 ^ 8
      | _, _ => 0,
    active_color := .White }

/-! Theorems. Helper lemmas first, then one theorem (plus witness or
counterexample where required) per claim. -/

/-- Helper: a fold that adds pointwise contributions and a constant phase
increment splits into the two mapped sums and the length count. -/
theorem foldl_triple_split (f g : Nat → Int) (k : Int) :
    ∀ (l : List Nat) (a b c : Int),
      l.foldl (fun acc bit => (acc.1 + f bit, acc.2.1 + g bit, acc.2.2 + k)) (a, b, c)
        = (a + (l.map f).sum, b + (l.map g).sum, c + k * (l.length : Int)) := by
  intro l
  induction l with
  | nil => intro a b c; simp
  | cons x xs ih =>
      intro a b c
      simp only [List.foldl_cons, List.map_cons, List.sum_cons, List.length_cons, ih]
      refine congrArg₂ _ (by ring) (congrArg₂ _ (by ring) (by push_cast; ring))

/-- Helper: every bit produced by the bitboard iterator is below 64. -/
theorem bitboardBits_lt (bb : Nat) : ∀ bit ∈ bitboardBits bb, bit < 64 := by
  intro bit hbit
  exact List.mem_range.mp (List.mem_filter.mp hbit).1

/-- Helper: on squares below 64, the source index computation agrees with
the XOR-56 mirror for White and the identity for Black. -/
theorem pst_index_eq_claim (c : Color) (s : Nat) (hs : s < 64) :
    pst_index c s = claim_pst_index c s := by
  have h : ∀ t, t < 64 → pst_index Color.White t = t ^^^ 56 := by decide
  cases c with
  | White => exact h s hs
  | Black => rfl

/-- Helper: `evaluate_piece_position` splits into the claim-side table
totals and the phase increment times the piece count. -/
theorem evaluate_piece_position_eq (c : Color) (p : Piece) (b : Board) :
    evaluate_piece_position c p b =
      (claimTableTotal (opening_table p) c (b.bbs c p),
       claimTableTotal (endgame_table p) c (b.bbs c p),
       phase_increment p * ((bitboardBits (b.bbs c p)).length : Int)) := by
  unfold evaluate_piece_position
  rw [foldl_triple_split]
  simp only [zero_add, claimTableTotal]
  refine congrArg₂ _ ?_ (congrArg₂ _ ?_ rfl)
  · refine congrArg _ (List.map_congr_left ?_)
    intro bit hbit
    rw [pst_index_eq_claim c bit (bitboardBits_lt _ bit hbit)]
  · refine congrArg _ (List.map_congr_left ?_)
    intro bit hbit
    rw [pst_index_eq_claim c bit (bitboardBits_lt _ bit hbit)]

/-- Claim C1 (counterexample): the claim says the evaluator reads the
tables at index s for a White piece on square s; on square 8 (a White pawn
on a2) the code computes index 48, not 8, and the full evaluator on a
board holding only that pawn returns the value folded from table entry 48
(which differs from the value at entry 8). -/
theorem C1_counterexample :
    pst_index Color.White 8 = 48
    ∧ (48 : Nat) ≠ 8
    ∧ (Evaluator.evaluate ⟨0, 0, 0⟩ boardC1).1 = ENDGAME_PAWN_TABLE.getD 48 0 + 94
    ∧ ENDGAME_PAWN_TABLE.getD 48 0 + 94 ≠ ENDGAME_PAWN_TABLE.getD 8 0 + 94 := by
  refine ⟨rfl, by decide, by decide, by decide⟩

/-- Claim C1 (amended): for every board and piece kind the evaluator reads
the mid-game and endgame tables at index s XOR 56 for a White piece on
square s and at index s for a Black piece on square s. -/
theorem C1_amended_pst_orientation (c : Color) (p : Piece) (b : Board) :
    evaluate_piece_position c p b =
      (claimTableTotal (opening_table p) c (b.bbs c p),
       claimTableTotal (endgame_table p) c (b.bbs c p),
       phase_increment p * ((bitboardBits (b.bbs c p)).length : Int)) :=
  evaluate_piece_position_eq c p b

/-- Claim C6: for every board (and every starting evaluator state), the
evaluator returns (o * phase + e * (24 - phase)) / 24 with truncating
division, where phase is the clamped sum of the piece-phase increments of
both sides and o and e are the opening and endgame table totals of the
side to move minus those of the opponent. -/
theorem C6_evaluate_tapered (e : Evaluator) (b : Board) :
    (e.evaluate b).1 =
      Int.tdiv
        ((openingTotal b b.active_color - openingTotal b b.active_color.negate)
            * min (phaseTotal b) 24
          + (endgameTotal b b.active_color - endgameTotal b b.active_color.negate)
            * (24 - min (phaseTotal b) 24)) 24 := by
  have hfold :
      (pieceList.foldl
        (fun acc piece => acc.evaluate_piece b.active_color piece b)
        (Evaluator.reset e)) =
      { gamephase :=
          (pieceList.map (fun p =>
            (evaluate_piece_position b.active_color p b).2.2
            + (evaluate_piece_position b.active_color.negate p b).2.2)).sum,
        opening_score :=
          (pieceList.map (fun p =>
            (evaluate_piece_position b.active_color p b).1
            - (evaluate_piece_position b.active_color.negate p b).1)).sum,
        endgame_score :=
          (pieceList.map (fun p =>
            (evaluate_piece_position b.active_color p b).2.1
            - (evaluate_piece_position b.active_color.negate p b).2.1)).sum } := by
    simp only [pieceList, List.foldl_cons, List.foldl_nil, List.map_cons, List.map_nil,
      List.sum_cons, List.sum_nil, Evaluator.evaluate_piece, Evaluator.reset]
    refine (Evaluator.mk.injEq _ _ _ _ _ _).mpr ⟨by ring, by ring, by ring⟩
  have hphase :
      (pieceList.map (fun p =>
        (evaluate_piece_position b.active_color p b).2.2
        + (evaluate_piece_position b.active_color.negate p b).2.2)).sum = phaseTotal b := by
    cases hac : b.active_color
    all_goals
      simp only [phaseTotal, pieceList, Color.negate, List.map_cons, List.map_nil,
        List.sum_cons, List.sum_nil, evaluate_piece_position_eq,
        phase_increment, claimPhaseIncrement]
    all_goals ring
  have hopen :
      (pieceList.map (fun p =>
        (evaluate_piece_position b.active_color p b).1
        - (evaluate_piece_position b.active_color.negate p b).1)).sum
        = openingTotal b b.active_color - openingTotal b b.active_color.negate := by
    simp only [openingTotal, pieceList, List.map_cons, List.map_nil,
      List.sum_cons, List.sum_nil, evaluate_piece_position_eq]
    ring
  have hend :
      (pieceList.map (fun p =>
        (evaluate_piece_position b.active_color p b).2.1
        - (evaluate_piece_position b.active_color.negate p b).2.1)).sum
        = endgameTotal b b.active_color - endgameTotal b b.active_color.negate := by
    simp only [endgameTotal, pieceList, List.map_cons, List.map_nil,
      List.sum_cons, List.sum_nil, evaluate_piece_position_eq]
    ring
  show (Evaluator.evaluate e b).1 = _
  simp only [Evaluator.evaluate]
  rw [hfold]
  simp only [hphase, hopen, hend]
  have hmin : (if phaseTotal b > 24 then (24 : Int) else phaseTotal b) = min (phaseTotal b) 24 := by
    rcases le_or_lt (phaseTotal b) 24 with h | h
    · rw [if_neg (by omega), min_eq_left h]
    · rw [if_pos h, min_eq_right (le_of_lt h)]
  rw [hmin]

/-- Claim C9: the evaluator is deterministic and stateless with respect to
its own accumulator history: starting from any two internal states, the
score returned for the same board is identical (the accumulators are reset
at the start of every call). -/
theorem C9_evaluate_stateless (e1 e2 : Evaluator) (b : Board) :
    (e1.evaluate b).1 = (e2.evaluate b).1 := rfl

/-- Claim C5: the killer table is a 2-slot FIFO per ply: from any starting
table, storing three pairwise distinct moves A, B, C at a valid ply leaves
the killers at that ply equal to [C, B] with A absent; and storing a move
that already occupies the primary slot leaves the table unchanged. -/
theorem C5_killer_fifo (km : KillerMoves) (A B C : Move) (p : Nat)
    (hp : p < MAX_DEPTH) (hAB : A ≠ B) (hAC : A ≠ C) (hBC : B ≠ C) :
    (((km.store A p).store B p).store C p).get_killers p = [some C, some B]
    ∧ (((km.store A p).store B p).store C p).is_killer A p = false
    ∧ (∀ (km2 : KillerMoves) (mv : Move),
        (km2.moves p).getD 0 none = some mv → km2.store mv p = km2) := by
  have hvalid : ∀ (k : KillerMoves), k.is_valid_ply p = true := by
    intro k; simpa [KillerMoves.is_valid_ply] using hp
  have hstore_ne : ∀ (k : KillerMoves) (m : Move), (k.moves p).getD 0 none ≠ some m →
      (k.store m p).moves p = [some m, (k.moves p).getD 0 none] := by
    intro k m hne
    simp only [KillerMoves.store, hvalid, Bool.not_true, Bool.false_eq_true, if_false,
      if_neg hne, KillerMoves.shift_and_insert, Function.update_same]
  have hstore_head : ∀ (k : KillerMoves) (m : Move),
      ((k.store m p).moves p).getD 0 none = some m := by
    intro k m
    by_cases h0 : (k.moves p).getD 0 none = some m
    · simp only [KillerMoves.store, hvalid, Bool.not_true, Bool.false_eq_true, if_false,
        if_pos h0]
      exact h0
    · rw [hstore_ne k m h0]; rfl
  have hAhead : ((km.store A p).moves p).getD 0 none = some A := hstore_head km A
  have hBrow : (((km.store A p).store B p).moves p) = [some B, some A] := by
    have := hstore_ne (km.store A p) B (by rw [hAhead]; simpa using hAB)
    rw [this, hAhead]
  have hCrow : ((((km.store A p).store B p).store C p).moves p) = [some C, some B] := by
    have := hstore_ne ((km.store A p).store B p) C (by rw [hBrow]; simpa using hBC)
    rw [this, hBrow]
    rfl
  refine ⟨?_, ?_, ?_⟩
  · simp only [KillerMoves.get_killers, hvalid, Bool.not_true, Bool.false_eq_true, if_false]
    exact hCrow
  · simp only [KillerMoves.is_killer, hvalid, Bool.not_true, Bool.false_eq_true, if_false,
      hCrow]
    simp [hAC, hAB]
  · intro km2 mv h0
    simp only [KillerMoves.store, hvalid, Bool.not_true, Bool.false_eq_true, if_false,
      if_pos h0]

/-- Claim C5 witness: the FIFO property at a concrete table, ply and three
concrete distinct moves. -/
theorem C5_witness :
    0 < MAX_DEPTH
    ∧ ((((KillerMoves.new.store ⟨8, 16, .Pawn, .Quiet⟩ 0).store ⟨9, 17, .Pawn, .Quiet⟩ 0).store
          ⟨10, 18, .Pawn, .Quiet⟩ 0).get_killers 0
        = [some ⟨10, 18, .Pawn, .Quiet⟩, some ⟨9, 17, .Pawn, .Quiet⟩]) := by
  refine ⟨by decide, ?_⟩
  exact (C5_killer_fifo KillerMoves.new ⟨8, 16, .Pawn, .Quiet⟩ ⟨9, 17, .Pawn, .Quiet⟩
    ⟨10, 18, .Pawn, .Quiet⟩ 0 (by decide) (by decide) (by decide) (by decide)).1

/-- Claim C10: every killer-table operation is total and a no-op beyond
MAX_DEPTH: for any ply at or above 64, store and clear_ply return the
table unchanged, is_killer is false and get_killers is the empty slice
(totality itself is inherent in the Lean embedding: all four operations
are total functions). -/
theorem C10_killer_ply_bounds (km : KillerMoves) (mv : Move) (ply : Nat)
    (h : 64 ≤ ply) :
    km.store mv ply = km
    ∧ km.clear_ply ply = km
    ∧ km.is_killer mv ply = false
    ∧ km.get_killers ply = [] := by
  have hinvalid : ∀ (k : KillerMoves), k.is_valid_ply ply = false := by
    intro k
    simp only [KillerMoves.is_valid_ply, MAX_DEPTH, decide_eq_false_iff_not]
    omega
  refine ⟨?_, ?_, ?_, ?_⟩
  · simp [KillerMoves.store, hinvalid]
  · simp [KillerMoves.clear_ply, hinvalid]
  · simp [KillerMoves.is_killer, hinvalid]
  · simp [KillerMoves.get_killers, hinvalid]

/-- Claim C10 witness: the bounds behavior at ply 255 on the empty table. -/
theorem C10_witness :
    64 ≤ 255
    ∧ (KillerMoves.new.store ⟨8, 16, .Pawn, .Quiet⟩ 255 = KillerMoves.new
       ∧ KillerMoves.new.clear_ply 255 = KillerMoves.new
       ∧ KillerMoves.new.is_killer ⟨8, 16, .Pawn, .Quiet⟩ 255 = false
       ∧ KillerMoves.new.get_killers 255 = []) :=
  ⟨by decide, C10_killer_ply_bounds KillerMoves.new ⟨8, 16, .Pawn, .Quiet⟩ 255 (by decide)⟩

/-- Helper: negamax at any depth unfolds to its body with the child search
of that depth. -/
theorem negamax_eq {B : Type} (eng : Engine B) (qfuel depth : Nat) :
    negamax eng qfuel depth =
      negamax_body eng qfuel (negamax_child eng qfuel depth) depth := by
  cases depth <;> rfl

/-- Helper: inserting into the by-key sort grows the length by one. -/
theorem insert_by_key_length {α : Type} (key : α → Int) (a : α) (l : List α) :
    (insert_by_key key a l).length = l.length + 1 := by
  induction l with
  | nil => rfl
  | cons x xs ih =>
      unfold insert_by_key
      by_cases h : key a ≤ key x
      · rw [if_pos h]
        rfl
      · rw [if_neg h]
        simp [ih]

/-- Helper: the by-key sort preserves the length of the list. -/
theorem sort_by_key_length {α : Type} (key : α → Int) (l : List α) :
    (sort_by_key key l).length = l.length := by
  induction l with
  | nil => rfl
  | cons x xs ih =>
      unfold sort_by_key
      rw [insert_by_key_length, ih]
      exact (List.length_cons x xs).symm

/-- Helper: capture ordering is a length-preserving sort, so it preserves
emptiness of the move list. -/
theorem order_captures_isEmpty {B : Type} (eng : Engine B) (moves : List Move) (b : B) :
    (order_captures eng moves b).isEmpty = moves.isEmpty := by
  have h0 : (order_captures eng moves b).length = moves.length :=
    sort_by_key_length _ moves
  rcases hoc : order_captures eng moves b with _ | ⟨x, xs⟩ <;>
    rcases hmv : moves with _ | ⟨y, ys⟩
  · rfl
  · rw [hoc, hmv] at h0
    simp at h0
  · rw [hoc, hmv] at h0
    simp at h0
  · rfl

/-- Claim C4: whenever move generation returns the empty list and negamax
reaches its move-generation step (positive remaining depth, no repetition
early-out, no transposition hit), it returns -(CHECKMATE_SCORE - depth)
with an absent best move when the side to move is in check, and 0 with an
absent best move otherwise; the state is returned unchanged and no error
is possible (the embedding is a total function). -/
theorem C4_no_legal_moves {B : Type} (eng : Engine B) (qfuel depth : Nat) (b : B)
    (ply : Nat) (alpha beta : Int) (ctx : SearchContext) (st : SearcherState)
    (hd : 0 < depth)
    (hrep : ¬(0 < ply ∧ is_draw_by_repetition eng st b = true))
    (hprobe : st.transposition_table.retrieve (eng.hash b) = none)
    (hmoves : eng.generate_moves b = []) :
    negamax eng qfuel depth b ply alpha beta ctx st =
      ((if eng.is_in_check b
        then (⟨-(CHECKMATE_SCORE - (depth : Int)), none⟩ : SearchResult)
        else ⟨0, none⟩), st) := by
  obtain ⟨d, rfl⟩ : ∃ d, depth = d + 1 := ⟨depth - 1, by omega⟩
  rw [negamax_eq]
  unfold negamax_body
  rw [if_neg hrep]
  unfold probe_transposition_table
  rw [hprobe]
  unfold negamax_after_probe
  simp only [hmoves, List.isEmpty_nil, if_true]
  unfold handle_terminal_position
  have harith : -CHECKMATE_SCORE + ((d + 1 : Nat) : Int)
      = -(CHECKMATE_SCORE - ((d + 1 : Nat) : Int)) := by ring
  by_cases hc : eng.is_in_check b
  · rw [if_pos hc, if_pos hc]
    unfold SearchResult.checkmate
    rw [harith]
  · rw [if_neg hc, if_neg hc]
    rfl

/-- Claim C4 witness: a checkmated position at remaining depth 3 returns
-(CHECKMATE_SCORE - 3) with no best move. -/
theorem C4_witness :
    negamax engC4 1 3 () 0 (-5) 5 SearchContext.new stEmpty =
      ((if engC4.is_in_check ()
        then (⟨-(CHECKMATE_SCORE - ((3 : Nat) : Int)), none⟩ : SearchResult)
        else ⟨0, none⟩), stEmpty) :=
  C4_no_legal_moves engC4 1 3 () 0 (-5) 5 SearchContext.new stEmpty
    (by decide) (by decide) (by decide) (by decide)

/-- Claim C2 (amended): when negamax probes the transposition table and
the entry has sufficient depth, an Exact entry returns
(entry.score, entry.best_move) immediately; a Lower entry raises a
probe-local alpha to max(alpha, entry.score), an Upper entry lowers a
probe-local beta to min(beta, entry.score), and if the adjusted window
gives alpha >= beta, negamax returns (entry.score, entry.best_move);
otherwise the node continues with its ORIGINAL alpha and beta (the
adjustment does not persist), remembering only the entry's best move for
ordering. -/
theorem C2_tt_probe_usage {B : Type} (eng : Engine B) (qfuel depth : Nat) (b : B)
    (ply : Nat) (alpha beta : Int) (ctx : SearchContext) (st : SearcherState)
    (entry : TranspositionEntry)
    (hrep : ¬(0 < ply ∧ is_draw_by_repetition eng st b = true))
    (hret : st.transposition_table.retrieve (eng.hash b) = some entry)
    (hdepth : depth ≤ entry.depth) :
    (entry.bounds = Bounds.Exact →
      negamax eng qfuel depth b ply alpha beta ctx st
        = (⟨entry.eval, entry.best_move⟩, st))
    ∧ (entry.bounds = Bounds.Lower →
        (max alpha entry.eval ≥ beta →
          negamax eng qfuel depth b ply alpha beta ctx st
            = (⟨entry.eval, entry.best_move⟩, st))
        ∧ (max alpha entry.eval < beta →
          negamax eng qfuel depth b ply alpha beta ctx st
            = negamax_after_probe eng qfuel (negamax_child eng qfuel depth) depth b ply
                alpha beta alpha ⟨entry.best_move⟩ st))
    ∧ (entry.bounds = Bounds.Upper →
        (alpha ≥ min beta entry.eval →
          negamax eng qfuel depth b ply alpha beta ctx st
            = (⟨entry.eval, entry.best_move⟩, st))
        ∧ (alpha < min beta entry.eval →
          negamax eng qfuel depth b ply alpha beta ctx st
            = negamax_after_probe eng qfuel (negamax_child eng qfuel depth) depth b ply
                alpha beta alpha ⟨entry.best_move⟩ st)) := by
  rw [negamax_eq]
  unfold negamax_body
  rw [if_neg hrep]
  refine ⟨?_, ?_, ?_⟩
  · intro hb
    have hp : probe_transposition_table eng st b depth alpha beta ctx
        = (some ⟨entry.eval, entry.best_move⟩, ⟨entry.best_move⟩) := by
      unfold probe_transposition_table
      rw [hret]
      dsimp only
      rw [if_neg (not_lt.mpr hdepth), hb]
    rw [hp]
  · intro hb
    constructor
    · intro hcut
      have hp : probe_transposition_table eng st b depth alpha beta ctx
          = (some ⟨entry.eval, entry.best_move⟩, ⟨entry.best_move⟩) := by
        unfold probe_transposition_table
        rw [hret]
        dsimp only
        rw [if_neg (not_lt.mpr hdepth), hb]
        dsimp only
        rw [if_pos hcut]
      rw [hp]
    · intro hcont
      have hp : probe_transposition_table eng st b depth alpha beta ctx
          = (none, ⟨entry.best_move⟩) := by
        unfold probe_transposition_table
        rw [hret]
        dsimp only
        rw [if_neg (not_lt.mpr hdepth), hb]
        dsimp only
        rw [if_neg (not_le.mpr hcont)]
      rw [hp]
  · intro hb
    constructor
    · intro hcut
      have hp : probe_transposition_table eng st b depth alpha beta ctx
          = (some ⟨entry.eval, entry.best_move⟩, ⟨entry.best_move⟩) := by
        unfold probe_transposition_table
        rw [hret]
        dsimp only
        rw [if_neg (not_lt.mpr hdepth), hb]
        dsimp only
        rw [if_pos hcut]
      rw [hp]
    · intro hcont
      have hp : probe_transposition_table eng st b depth alpha beta ctx
          = (none, ⟨entry.best_move⟩) := by
        unfold probe_transposition_table
        rw [hret]
        dsimp only
        rw [if_neg (not_lt.mpr hdepth), hb]
        dsimp only
        rw [if_neg (not_le.mpr hcont)]
      rw [hp]

/-- Claim C2 witness: in the concrete C2 scenario (Lower entry of score 50
with window [0, 100], no cutoff since max(0, 50) < 100), negamax equals
the continuation with the original alpha 0 and beta 100. -/
theorem C2_witness :
    negamax engC2 5 1 true 0 0 100 SearchContext.new stC2 =
      negamax_after_probe engC2 5 (negamax_child engC2 5 1) 1 true 0 0 100 0
        ⟨none⟩ stC2 :=
  ((C2_tt_probe_usage engC2 5 1 true 0 0 100 SearchContext.new stC2
      ⟨1, 1, 50, none, Bounds.Lower⟩ (by decide) (by decide) (by decide)).2.1
    rfl).2 (by decide)

/-- Claim C2 counterexample: the claim as stated says a Lower entry raises
alpha for the remainder of the node's search; in the concrete C2 scenario
the actual negamax (continuing with the original alpha 0) returns score 0,
while the node continuation run with alpha raised to max(0, 50) = 50
returns score 50; the adjustment therefore does not persist. -/
theorem C2_counterexample :
    (negamax engC2 5 1 true 0 0 100 SearchContext.new stC2).1.score = 0
    ∧ (negamax_after_probe engC2 5 (negamax_child engC2 5 1) 1 true 0 50 100 0
        ⟨none⟩ stC2).1.score = 50
    ∧ (0 : Int) ≠ 50 := by
  refine ⟨by decide, by decide, by decide⟩

/-- Claim C3: in main-search move ordering, an ordinary capture receives
the sort key -1000 - MVV_LVA[victim][attacker], but an en-passant capture
receives the quiet-move key 0: its capture score is None because the
en-passant target square holds no piece, so the en-passant arm of the
condition can never produce a capture score (the claimed key for pawn
takes pawn would be -1015). -/
theorem C3_en_passant_key :
    order_moves_key engC3 () none KillerMoves.new 0 mvC3ep = 0
    ∧ order_moves_key engC3 () none KillerMoves.new 0 mvC3cap =
        -1000 - (MVV_LVA_SCORES.getD Piece.Pawn.index []).getD Piece.Pawn.index 0
    ∧ ((-1000 : Int) - (MVV_LVA_SCORES.getD Piece.Pawn.index []).getD Piece.Pawn.index 0
        = -1015)
    ∧ (0 : Int) ≠ -1015 := by
  refine ⟨by decide, by decide, by decide, by decide⟩

/-- Claim C7: quiescence search returns -CHECKMATE_SCORE for a position in
check with no legal moves; for every other position it returns beta
whenever the stand-pat evaluation reaches beta (failing high before any
move is searched), and otherwise enters its move loop with alpha raised to
max(alpha, stand_pat). -/
theorem C7_quiescence {B : Type} (eng : Engine B) (fuel : Nat) (b : B)
    (alpha beta : Int) :
    (eng.is_in_check b = true → eng.generate_moves b = [] →
      search_until_quiet eng (fuel + 1) b alpha beta = -CHECKMATE_SCORE)
    ∧ (¬(eng.is_in_check b = true ∧ eng.generate_moves b = []) →
        eng.evaluate b ≥ beta →
        search_until_quiet eng (fuel + 1) b alpha beta = beta)
    ∧ (¬(eng.is_in_check b = true ∧ eng.generate_moves b = []) →
        eng.evaluate b < beta →
        search_until_quiet eng (fuel + 1) b alpha beta =
          quiet_loop (fun b2 a2 b3 => search_until_quiet eng fuel b2 a2 b3)
            eng.clone_with_move b beta
            (order_captures eng
              (if eng.is_in_check b then eng.generate_moves b
               else eng.generate_quiescence_moves b) b)
            (max alpha (eng.evaluate b))) := by
  have hsucc : search_until_quiet eng (fuel + 1) b alpha beta =
      (if ((order_captures eng
              (if eng.is_in_check b then eng.generate_moves b
               else eng.generate_quiescence_moves b) b).isEmpty
            && eng.is_in_check b) = true then -CHECKMATE_SCORE
       else if eng.evaluate b ≥ beta then beta
       else
         quiet_loop (fun b2 a2 b3 => search_until_quiet eng fuel b2 a2 b3)
           eng.clone_with_move b beta
           (order_captures eng
             (if eng.is_in_check b then eng.generate_moves b
              else eng.generate_quiescence_moves b) b)
           (max alpha (eng.evaluate b))) := rfl
  refine ⟨?_, ?_, ?_⟩
  · intro hc hm
    rw [hsucc, hc, hm]
    simp [order_captures, sort_by_key]
  · intro hnot hsp
    rw [hsucc]
    have hcond :
        ((order_captures eng
            (if eng.is_in_check b then eng.generate_moves b
             else eng.generate_quiescence_moves b) b).isEmpty
          && eng.is_in_check b) = false := by
      cases hc : eng.is_in_check b
      · simp
      · simp only [Bool.and_true, if_true, order_captures_isEmpty]
        rcases hg : eng.generate_moves b with _ | ⟨m, ms⟩
        · exact absurd ⟨hc, hg⟩ hnot
        · rfl
    rw [hcond]
    simp only [Bool.false_eq_true, if_false]
    rw [if_pos hsp]
  · intro hnot hsp
    rw [hsucc]
    have hcond :
        ((order_captures eng
            (if eng.is_in_check b then eng.generate_moves b
             else eng.generate_quiescence_moves b) b).isEmpty
          && eng.is_in_check b) = false := by
      cases hc : eng.is_in_check b
      · simp
      · simp only [Bool.and_true, if_true, order_captures_isEmpty]
        rcases hg : eng.generate_moves b with _ | ⟨m, ms⟩
        · exact absurd ⟨hc, hg⟩ hnot
        · rfl
    rw [hcond]
    simp only [Bool.false_eq_true, if_false]
    rw [if_neg (not_le.mpr hsp)]

/-- Claim C7 witness: the in-check mate case returns -CHECKMATE_SCORE, and
the stand-pat fail-high case (evaluation 30 against beta 10) returns
beta. -/
theorem C7_witness :
    search_until_quiet engC4 1 () 0 5 = -CHECKMATE_SCORE
    ∧ search_until_quiet engC7 1 () 0 10 = 10 :=
  ⟨(C7_quiescence engC4 0 () 0 5).1 rfl rfl,
   (C7_quiescence engC7 0 () 0 10).2.1 (by decide) (by decide)⟩

end Flounder
